import Mathlib

/-!
Verification of the Traplace URL-shortener core (app/utils/shortener.py,
app/routes/shortener.py, app/extensions.py) against its specification.

The Python functions are shallowly embedded as executable Lean functions.
The Redis store is modelled as an association list from keys to
(value, ttl) pairs; redis operations `get`, `set .. ex .. nx`, `set`,
`exists`, `expire` become `sget`, `ssetnx`, `sset`, `sexists`, `sexpire`.
Randomness (`secrets.randbits(48)`) is an explicit stream of draws.
-/

namespace Traplace

/-- The base-62 alphabet `_BASE62` from app/utils/shortener.py. -/
def BASE62 : List Char :=
  ['0', '1', '2', '3', '4', '5', '6', '7', '8', '9',
   'A', 'B', 'C', 'D', 'E', 'F', 'G', 'H', 'I', 'J', 'K', 'L', 'M',
   'N', 'O', 'P', 'Q', 'R', 'S', 'T', 'U', 'V', 'W', 'X', 'Y', 'Z',
   'a', 'b', 'c', 'd', 'e', 'f', 'g', 'h', 'i', 'j', 'k', 'l', 'm',
   'n', 'o', 'p', 'q', 'r', 's', 't', 'u', 'v', 'w', 'x', 'y', 'z']

/-- `_BASE62[d]` for a digit `d < 62`. -/
def b62digit (d : Nat) : Char := BASE62.getD d '0'

/-- The `to_base62` loop with explicit fuel, structurally recursive so
that the kernel can evaluate it: while the value is positive, emit
`_BASE62[value % 62]` and continue with `value / 62`.  The fuel bounds
the number of iterations; since `n / 62 < n` for `n > 0`, fuel `n`
always suffices and the fuel-exhausted branch is unreachable from
`toBase62Rev` (lemma `toBase62Go_irrel`). -/
def toBase62Go : Nat → Nat → List Char
  | _, 0 => []
  | 0, _ + 1 => []
  | fuel + 1, m + 1 => b62digit ((m + 1) % 62) :: toBase62Go fuel ((m + 1) / 62)

/-- Little-endian digit list of `n` in base 62 (the Python loop body of
`to_base62`, which appends `_BASE62[n % 62]` while `n > 0`). -/
def toBase62Rev (n : Nat) : List Char := toBase62Go n n

/-- `to_base62` from app/utils/shortener.py: `"0"` for `0`, otherwise the
reversed digit list. -/
def to_base62 (n : Nat) : String :=
  if n = 0 then "0" else String.mk (toBase62Rev n).reverse

/-- `new_code` from app/utils/shortener.py, with the 48-bit random draw
`r48` made an explicit argument: base-62 encode it, left-pad with `'0'`
to `code_len` when shorter, truncate (`code[:code_len]`) when longer. -/
def new_code (r48 : Nat) (code_len : Nat) : String :=
  let code := to_base62 r48
  if code.length < code_len then
    String.mk (List.replicate (code_len - code.length) '0' ++ code.data)
  else
    String.mk (code.data.take code_len)

/-- Value of a base-62 digit character: its index in the alphabet
(62 when the character is not in the alphabet). -/
def b62val (c : Char) : Nat := (BASE62.indexOf c)

/-- Value of a little-endian base-62 digit list. -/
def valRev : List Char → Nat
  | [] => 0
  | c :: cs => b62val c + 62 * valRev cs

/-- Interpret a string as a big-endian base-62 numeral (the inverse
reading of `to_base62`). -/
def ofBase62 (s : String) : Nat := valRev s.data.reverse

/-! ### Model of `urllib.parse.urlparse`

The repository calls CPython's `urllib.parse.urlparse` and uses the
`scheme`, `netloc`, `path` and `query` components.  The functions below
embed CPython's `urlsplit`/`urlparse` algorithm: strip leading
C0-control/space characters, remove all tab/CR/LF characters, split off
`scheme:` when the part before the first colon is a valid scheme, split
off `//netloc` up to the next `/`, `?` or `#`, split the fragment at the
first `#`, the query at the first `?`, and (for schemes using
parameters) the `;params` of the last path segment.  The `ValueError`
raised on mismatched IPv6 brackets in the netloc is not modelled; no
input considered here contains brackets. -/

/-- A character of CPython's `scheme_chars` (ASCII letters, digits,
`+`, `-`, `.`). -/
def isSchemeChar (c : Char) : Bool :=
  c.isAlpha || c.isDigit || c = '+' || c = '-' || c = '.'

/-- CPython accepts `url[:i]` as a scheme when it is nonempty, starts
with an ASCII letter, and consists of scheme characters. -/
def schemeOk : List Char → Bool
  | [] => false
  | c :: cs => c.isAlpha && (c :: cs).all isSchemeChar

/-- A C0 control character or space (`_WHATWG_C0_CONTROL_OR_SPACE`). -/
def isC0OrSpace (c : Char) : Bool := c.toNat ≤ 32

/-- Tab, CR or LF (`_UNSAFE_URL_BYTES_TO_REMOVE`). -/
def isUnsafeUrlByte (c : Char) : Bool := c = '\t' || c = '\r' || c = '\n'

/-- The input cleaning performed by `urlsplit`. -/
def cleanUrl (l : List Char) : List Char :=
  (l.dropWhile isC0OrSpace).filter (fun c => !(isUnsafeUrlByte c))

/-- Split a character list at the first occurrence of `c`, dropping it;
`none` when `c` does not occur. -/
def splitFirst (c : Char) : List Char → Option (List Char × List Char)
  | [] => none
  | x :: xs =>
    if x = c then some ([], xs)
    else (splitFirst c xs).map (fun p => (x :: p.1, p.2))

/-- Result record of `urlparse` (the components the repository reads,
plus `params` and `fragment` which it ignores). -/
structure UrlParts where
  scheme : String
  netloc : String
  path : String
  params : String
  query : String
  fragment : String
deriving Repr, DecidableEq

/-- A character terminating the netloc (`_splitnetloc` stops at the
first of `/`, `?`, `#`). -/
def netlocEnd (c : Char) : Bool := c = '/' || c = '?' || c = '#'

/-- `url.split(c, 1)` as used by `urlsplit` for `#` and `?`: split at
the first occurrence of `c` when present (CPython only calls `split`
after an `in` test, and the absent case returning the whole input with
an empty second part coincides with not splitting at all). -/
def splitOn (c : Char) (l : List Char) : List Char × List Char :=
  match splitFirst c l with
  | some (a, b) => (a, b)
  | none => (l, [])

/-- The scheme step of `urlsplit`: when the part before the first
colon is a valid scheme, return it lowercased together with the rest,
otherwise no scheme and the whole input. -/
def schemeSplit (l : List Char) : List Char × List Char :=
  match splitFirst ':' l with
  | some (before, after) =>
    if before ≠ [] && schemeOk before then (before.map Char.toLower, after)
    else (([] : List Char), l)
  | none => (([] : List Char), l)

/-- The netloc step of `urlsplit` (`_splitnetloc`): after a leading
`//`, the netloc runs to the first `/`, `?` or `#`. -/
def netlocSplit : List Char → List Char × List Char
  | '/' :: '/' :: rest =>
      (rest.takeWhile (fun c => !(netlocEnd c)),
       rest.dropWhile (fun c => !(netlocEnd c)))
  | l => (([] : List Char), l)

/-- CPython `urlsplit` (with `allow_fragments=True`); `params` is
left empty, as in a `SplitResult`. -/
def urlsplitCore (l0 : List Char) : UrlParts :=
  let sr := schemeSplit (cleanUrl l0)
  let nr := netlocSplit sr.2
  let uf := splitOn '#' nr.2
  let pq := splitOn '?' uf.1
  ⟨String.mk sr.1, String.mk nr.1, String.mk pq.1,
   "", String.mk pq.2, String.mk uf.2⟩

/-- CPython `_splitparams`: split the parameters of the LAST path
segment, i.e. look for `;` only after the last `/`. -/
def splitParams (l : List Char) : List Char × List Char :=
  match splitFirst '/' l.reverse with
  | some (rb, ra) =>
      match splitFirst ';' rb.reverse with
      | some (p, q) => (ra.reverse ++ '/' :: p, q)
      | none => (l, [])
  | none =>
      match splitFirst ';' l with
      | some (p, q) => (p, q)
      | none => (l, [])

/-- Schemes for which `urlparse` splits path parameters
(`uses_params`). -/
def usesParams : List String :=
  ["", "ftp", "hdl", "prospero", "http", "imap", "https", "shttp",
   "rtsp", "rtspu", "sip", "sips", "mms", "sftp", "tel"]

/-- CPython `urlparse`: `urlsplit` plus parameter splitting. -/
def urlparse (url : String) : UrlParts :=
  let r := urlsplitCore url.data
  if r.scheme ∈ usesParams ∧ ';' ∈ r.path.data then
    let pq := splitParams r.path.data
    { r with path := String.mk pq.1, params := String.mk pq.2 }
  else r

/-! ### URL utilities of app/utils/shortener.py -/

/-- An ASCII whitespace character (the characters Python's
`str.strip()` removes from the inputs considered here). -/
def isPySpace (c : Char) : Bool :=
  c = ' ' || c = '\t' || c = '\n' || c = '\r' || c = '\x0b' || c = '\x0c'

/-- Python `str.strip()`: drop leading and trailing whitespace. -/
def pyStrip (s : String) : String :=
  String.mk (((s.data.dropWhile isPySpace).reverse.dropWhile isPySpace).reverse)

/-- Python `s.startswith(pre)`. -/
def startswith (s pre : String) : Bool := pre.data.isPrefixOf s.data

/-- The parts of a Flask `Request` the shortener reads. -/
structure Req where
  scheme : String
  host : String
deriving Repr, DecidableEq

/-- `origin_of` from app/utils/shortener.py. -/
def origin_of (req : Req) : String := req.scheme ++ "://" ++ req.host

/-- `same_origin` from app/utils/shortener.py. -/
def same_origin (req : Req) (target_url : String) : Bool :=
  if startswith target_url "/" then true
  else
    let p := urlparse target_url
    if p.scheme = "" || p.netloc = "" then false
    else (p.scheme ++ "://" ++ p.netloc) == origin_of req

/-- `extract_path_preserving_query` from app/utils/shortener.py. -/
def extract_path_preserving_query (target : String) : String :=
  if startswith target "/" then target
  else
    let parsed := urlparse target
    let path := if parsed.path = "" then "/" else parsed.path
    if parsed.query ≠ "" then path ++ "?" ++ parsed.query else path

/-! ### The key-value store

Redis is modelled as an association list from keys to (value, ttl)
pairs; the first matching entry is the binding.  TTLs are recorded but
time is not advanced: every present key is live (claims about expiry
windows are stated as hypotheses on the store's contents). -/

/-- One store entry: key, value, remaining ttl. -/
abbrev Store := List (String × String × Nat)

/-- `r.get k`: value of the first binding of `k`, if any. -/
def sget (s : Store) (k : String) : Option String :=
  (s.find? (fun e => e.1 = k)).map (fun e => e.2.1)

/-- Full first binding of `k` (value and ttl). -/
def sentry (s : Store) (k : String) : Option (String × Nat) :=
  (s.find? (fun e => e.1 = k)).map (fun e => e.2)

/-- Ttl of the first binding of `k`. -/
def sttl (s : Store) (k : String) : Option Nat :=
  (s.find? (fun e => e.1 = k)).map (fun e => e.2.2)

/-- `r.exists k`. -/
def sexists (s : Store) (k : String) : Bool :=
  (s.find? (fun e => e.1 = k)).isSome

/-- `r.set k v ex=ttl`: unconditional set. -/
def sset (s : Store) (k v : String) (ttl : Nat) : Store :=
  (k, v, ttl) :: s.filter (fun e => e.1 ≠ k)

/-- `r.set k v ex=ttl nx=True`: atomic set-if-absent; returns whether it
wrote, and the new store. -/
def ssetnx (s : Store) (k v : String) (ttl : Nat) : Bool × Store :=
  if sexists s k then (false, s) else (true, (k, v, ttl) :: s)

/-- `r.expire k ttl`: reset the ttl of `k` (all bindings of `k`),
leaving values unchanged. -/
def sexpire (s : Store) (k : String) (ttl : Nat) : Store :=
  s.map (fun e => if e.1 = k then (e.1, e.2.1, ttl) else e)

/-! ### Routes of app/routes/shortener.py

Configuration (`SHORT_KEY_PREFIX`, `SHORT_TTL_SECONDS`,
`SHORT_CODE_LEN`) is a record; `secrets.randbits(48)` is an explicit
stream `rand : Nat → Nat` of draws indexed by draw number.  The store is
an `Option Store`: `none` models `get_redis()` returning no usable
client because the backing store cannot be reached (any method call on
it then raises, surfacing as an infrastructure failure, not as a
validation error, a 404 or an empty success). -/

/-- The three configuration values the routes read. -/
structure Config where
  key_pfx : String
  ttl : Nat
  code_len : Nat
deriving Repr, DecidableEq

/-- Outcome of `POST /api/shorten`.  `error 400 m` is a
ValidationError, `error 503 m` is AllocationExhausted; `success 201`
is "created", `success 200` is "reused"; `infraFailure` is the
exception raised when the store client is unavailable. -/
inductive ShortenOutcome where
  | error (status : Nat) (message : String)
  | success (status : Nat) (code : String) (path : String)
  | infraFailure
deriving Repr, DecidableEq

/-- Outcome of `GET /s/<code>`. -/
inductive ResolveOutcome where
  | notFound
  | redirect (path : String)
  | infraFailure
deriving Repr, DecidableEq

/-- The AllocationExhausted message. -/
def exhaustedMsg : String := "could not allocate short code, try again"

/-- The collision-retry loop of `api_shorten` (`for _ in range(8)`),
started with fuel 8.  `i` is the index of the next random draw; the
returned `Nat` is the index after the last draw, i.e. the number of
generation attempts performed when started at 0. -/
def allocLoop (cfg : Config) (path revKey : String) (rand : Nat → Nat) :
    Store → Nat → Nat → ShortenOutcome × Store × Nat
  | s, i, 0 => (.error 503 exhaustedMsg, s, i)
  | s, i, fuel + 1 =>
    let code := new_code (rand i) cfg.code_len
    let key := cfg.key_pfx ++ code
    let r := ssetnx s key path cfg.ttl
    if r.1 then
      (.success 201 code path, sset r.2 revKey code cfg.ttl, i + 1)
    else
      allocLoop cfg path revKey rand r.2 (i + 1) fuel

/-- `api_shorten` after validation has passed: reverse lookup, dedup
reuse, or the allocation loop. -/
def api_shorten_core (cfg : Config) (s : Store) (raw : String)
    (rand : Nat → Nat) : ShortenOutcome × Store × Nat :=
  let path := extract_path_preserving_query raw
  let revKey := cfg.key_pfx ++ "path:" ++ path
  let existing := (sget s revKey).getD ""
  if existing ≠ "" then
    let fwdKey := cfg.key_pfx ++ existing
    if sexists s fwdKey then
      (.success 200 existing path,
       sexpire (sexpire s fwdKey cfg.ttl) revKey cfg.ttl, 0)
    else allocLoop cfg path revKey rand s 0 8
  else allocLoop cfg path revKey rand s 0 8

/-- `api_shorten` (POST /api/shorten).  `input` is the request's `url`
field (`none` when absent); `raw` is its stripped value.  Validation
runs before the store client is first used, so validation errors are
produced even when the store is unavailable. -/
def api_shorten (cfg : Config) (store? : Option Store) (input : Option String)
    (req : Req) (rand : Nat → Nat) : ShortenOutcome × Option Store × Nat :=
  let raw := pyStrip (input.getD "")
  if raw = "" then (.error 400 "url is required", store?, 0)
  else if !(same_origin req raw) then
    (.error 400 "only same-origin URLs are allowed", store?, 0)
  else
    match store? with
    | none => (.infraFailure, none, 0)
    | some s =>
        let r := api_shorten_core cfg s raw rand
        (r.1, some r.2.1, r.2.2)

/-- `redirect_short` (GET /s/<code>): look up the forward key; miss (or
a falsy stored value) aborts 404; hit refreshes the forward ttl and
redirects to the stored path. -/
def redirect_short (cfg : Config) (store? : Option Store) (code : String) :
    ResolveOutcome × Option Store :=
  match store? with
  | none => (.infraFailure, none)
  | some s =>
    let key := cfg.key_pfx ++ code
    match sget s key with
    | none => (.notFound, some s)
    | some path =>
        if path = "" then (.notFound, some s)
        else (.redirect path, some (sexpire s key cfg.ttl))

/-! ## Base-62 lemmas -/

lemma toBase62Go_zero (fuel : Nat) : toBase62Go fuel 0 = [] := by
  cases fuel <;> rfl

lemma toBase62Go_irrel : ∀ f1 f2 n : Nat, n ≤ f1 → n ≤ f2 →
    toBase62Go f1 n = toBase62Go f2 n := by
  intro f1
  induction f1 with
  | zero =>
    intro f2 n h1 _
    have : n = 0 := Nat.le_zero.mp h1
    subst this
    rw [toBase62Go_zero, toBase62Go_zero]
  | succ f ih =>
    intro f2 n h1 h2
    cases n with
    | zero => rw [toBase62Go_zero, toBase62Go_zero]
    | succ m =>
      cases f2 with
      | zero => omega
      | succ g =>
        show b62digit ((m + 1) % 62) :: toBase62Go f ((m + 1) / 62) =
          b62digit ((m + 1) % 62) :: toBase62Go g ((m + 1) / 62)
        have hdiv : (m + 1) / 62 < m + 1 :=
          Nat.div_lt_self (Nat.succ_pos m) (by decide)
        rw [ih g ((m + 1) / 62) (by omega) (by omega)]

lemma toBase62Rev_zero : toBase62Rev 0 = [] := rfl

lemma toBase62Rev_pos {n : Nat} (h : n ≠ 0) :
    toBase62Rev n = b62digit (n % 62) :: toBase62Rev (n / 62) := by
  obtain ⟨m, rfl⟩ := Nat.exists_eq_succ_of_ne_zero h
  have hdiv : (m + 1) / 62 < m + 1 :=
    Nat.div_lt_self (Nat.succ_pos m) (by decide)
  show toBase62Go (m + 1) (m + 1) = _
  rw [show toBase62Go (m + 1) (m + 1) =
      b62digit ((m + 1) % 62) :: toBase62Go m ((m + 1) / 62) from rfl]
  rw [toBase62Go_irrel m ((m + 1) / 62) ((m + 1) / 62) (by omega) le_rfl]
  rfl

lemma b62digit_mem_of_lt : ∀ d : Nat, d < 62 → b62digit d ∈ BASE62 := by
  decide

lemma b62val_b62digit : ∀ d : Nat, d < 62 → b62val (b62digit d) = d := by
  decide

lemma b62digit_ne_zero_char : ∀ d : Nat, d < 62 → d ≠ 0 → b62digit d ≠ '0' := by
  decide

lemma toBase62Rev_subset : ∀ n : Nat, ∀ c ∈ toBase62Rev n, c ∈ BASE62 := by
  intro n
  induction n using Nat.strong_induction_on with
  | _ n ih =>
    by_cases h : n = 0
    · subst h
      rw [toBase62Rev_zero]
      intro c hc
      cases hc
    · rw [toBase62Rev_pos h]
      intro c hc
      rcases List.mem_cons.mp hc with rfl | hc
      · exact b62digit_mem_of_lt _ (Nat.mod_lt _ (by decide))
      · exact ih (n / 62) (Nat.div_lt_self (Nat.pos_of_ne_zero h) (by decide)) c hc

lemma valRev_toBase62Rev : ∀ n : Nat, valRev (toBase62Rev n) = n := by
  intro n
  induction n using Nat.strong_induction_on with
  | _ n ih =>
    by_cases h : n = 0
    · subst h
      rw [toBase62Rev_zero]
      rfl
    · rw [toBase62Rev_pos h]
      have hd : valRev (toBase62Rev (n / 62)) = n / 62 :=
        ih _ (Nat.div_lt_self (Nat.pos_of_ne_zero h) (by decide))
      simp only [valRev, hd, b62val_b62digit _ (Nat.mod_lt _ (by decide))]
      exact Nat.mod_add_div n 62

lemma toBase62Rev_ne_nil {n : Nat} (h : n ≠ 0) : toBase62Rev n ≠ [] := by
  rw [toBase62Rev_pos h]
  simp

lemma toBase62Rev_msd : ∀ n : Nat, n ≠ 0 →
    ∃ d, d < 62 ∧ d ≠ 0 ∧ (toBase62Rev n).reverse.head? = some (b62digit d) := by
  intro n
  induction n using Nat.strong_induction_on with
  | _ n ih =>
    intro h
    by_cases hq : n / 62 = 0
    · have hlt : n < 62 := by omega
      rw [toBase62Rev_pos h, hq, toBase62Rev_zero]
      refine ⟨n % 62, Nat.mod_lt _ (by decide), ?_, ?_⟩
      · rw [Nat.mod_eq_of_lt hlt]
        exact h
      · rfl
    · rw [toBase62Rev_pos h]
      obtain ⟨d, hd1, hd2, hd3⟩ :=
        ih (n / 62) (Nat.div_lt_self (Nat.pos_of_ne_zero h) (by decide)) hq
      refine ⟨d, hd1, hd2, ?_⟩
      rw [List.reverse_cons,
          List.head?_append_of_ne_nil _ ((List.reverse_ne_nil_iff).mpr (toBase62Rev_ne_nil hq))]
      exact hd3

lemma to_base62_data {n : Nat} (h : n ≠ 0) :
    (to_base62 n).data = (toBase62Rev n).reverse := by
  rw [to_base62]
  simp [h]

lemma to_base62_subset (n : Nat) : ∀ c ∈ (to_base62 n).data, c ∈ BASE62 := by
  by_cases h : n = 0
  · subst h
    intro c hc
    have : (to_base62 0).data = ['0'] := rfl
    rw [this] at hc
    rcases List.mem_singleton.mp hc with rfl
    decide
  · rw [to_base62_data h]
    intro c hc
    exact toBase62Rev_subset n c (List.mem_reverse.mp hc)

lemma to_base62_ne_nil (n : Nat) : (to_base62 n).data ≠ [] := by
  by_cases h : n = 0
  · subst h
    intro hc
    exact absurd hc (by decide)
  · rw [to_base62_data h]
    simp [toBase62Rev_ne_nil h]

/-! ## Claims C10 and C6 -/

/-- C10: for every natural number `n`, `to_base62 n` terminates and
returns a non-empty string over the 62-symbol alphabet that is the
canonical base-62 representation of `n`: no leading zero symbol unless
`n = 0` (where it returns exactly `"0"`), and reading the string back
as a base-62 numeral yields `n`. -/
theorem to_base62_canonical (n : Nat) :
    (to_base62 n).data ≠ [] ∧
    (∀ c ∈ (to_base62 n).data, c ∈ BASE62) ∧
    (n = 0 → to_base62 n = "0") ∧
    (n ≠ 0 → (to_base62 n).data.head? ≠ some '0') ∧
    ofBase62 (to_base62 n) = n := by
  refine ⟨to_base62_ne_nil n, to_base62_subset n, ?_, ?_, ?_⟩
  · intro h
    subst h
    rfl
  · intro h
    rw [to_base62_data h]
    obtain ⟨d, hd1, hd2, hd3⟩ := toBase62Rev_msd n h
    rw [hd3]
    intro hc
    exact b62digit_ne_zero_char d hd1 hd2 (Option.some.inj hc)
  · by_cases h : n = 0
    · subst h
      decide
    · rw [ofBase62, to_base62_data h, List.reverse_reverse]
      exact valRev_toBase62Rev n

/-- Witness for `to_base62_canonical` at `n = 62`. -/
theorem to_base62_canonical_witness :
    (62 : Nat) ≠ 0 ∧ (to_base62 62).data.head? ≠ some '0' ∧
    ofBase62 (to_base62 62) = 62 :=
  ⟨by decide, (to_base62_canonical 62).2.2.2.1 (by decide),
   (to_base62_canonical 62).2.2.2.2⟩

/-- C6: for every requested length ≥ 1 and every 48-bit draw,
`new_code` equals the base-62 representation of the draw, left-padded
with `'0'` when shorter than the requested length and truncated to its
first `length` characters when longer; hence the code has exactly the
requested length and all its characters are in the 62-symbol
alphabet. -/
theorem new_code_shape (r len : Nat) (hlen : 1 ≤ len) (hr : r < 2 ^ 48) :
    new_code r len =
      (if (to_base62 r).length < len
       then String.mk
         (List.replicate (len - (to_base62 r).length) '0' ++ (to_base62 r).data)
       else String.mk ((to_base62 r).data.take len)) ∧
    (new_code r len).length = len ∧
    ∀ c ∈ (new_code r len).data, c ∈ BASE62 := by
  refine ⟨rfl, ?_, ?_⟩
  · show (new_code r len).data.length = len
    rw [new_code]
    by_cases h : (to_base62 r).length < len
    · simp only [h, if_pos]
      show (List.replicate (len - (to_base62 r).length) '0' ++
        (to_base62 r).data).length = len
      rw [List.length_append, List.length_replicate]
      have : (to_base62 r).data.length = (to_base62 r).length := rfl
      omega
    · simp only [h, if_neg, not_false_iff]
      show ((to_base62 r).data.take len).length = len
      rw [List.length_take]
      have : (to_base62 r).data.length = (to_base62 r).length := rfl
      omega
  · intro c hc
    rw [new_code] at hc
    by_cases h : (to_base62 r).length < len
    · simp only [h, if_pos] at hc
      have : c ∈ List.replicate (len - (to_base62 r).length) '0' ++
          (to_base62 r).data := hc
      rcases List.mem_append.mp this with hrep | hbd
      · rw [List.eq_of_mem_replicate hrep]
        decide
      · exact to_base62_subset r c hbd
    · simp only [h, if_neg, not_false_iff] at hc
      have : c ∈ (to_base62 r).data.take len := hc
      exact to_base62_subset r c (List.take_subset _ _ this)

/-- Witness for `new_code_shape` at draw 5, length 8. -/
theorem new_code_shape_witness :
    1 ≤ 8 ∧ 5 < 2 ^ 48 ∧ (new_code 5 8).length = 8 ∧ new_code 5 8 = "00000005" :=
  ⟨by decide, by decide, (new_code_shape 5 8 (by decide) (by decide)).2.1,
   by decide⟩

/-! ## Store lemmas -/

lemma find?_filter_ne (s : Store) (k k' : String) (h : k' ≠ k) :
    (s.filter (fun e => e.1 ≠ k)).find? (fun e => e.1 = k') =
      s.find? (fun e => e.1 = k') := by
  induction s with
  | nil => rfl
  | cons e t ih =>
    by_cases h1 : e.1 = k
    · rw [List.filter_cons_of_neg (by simp [h1]), ih,
        List.find?_cons_of_neg _ (by simp [h1, Ne.symm h])]
    · rw [List.filter_cons_of_pos (by simp [h1])]
      by_cases h2 : e.1 = k'
      · rw [List.find?_cons_of_pos _ (by simp [h2]),
          List.find?_cons_of_pos _ (by simp [h2])]
      · rw [List.find?_cons_of_neg _ (by simp [h2]),
          List.find?_cons_of_neg _ (by simp [h2]), ih]

lemma sget_sset_self (s : Store) (k v : String) (ttl : Nat) :
    sget (sset s k v ttl) k = some v := by
  rw [sget, sset, List.find?_cons_of_pos _ (by simp)]
  rfl

lemma sget_sset_other (s : Store) (k k' v : String) (ttl : Nat) (h : k' ≠ k) :
    sget (sset s k v ttl) k' = sget s k' := by
  rw [sget, sset, List.find?_cons_of_neg _ (by simp [Ne.symm h]),
    find?_filter_ne s k k' h]
  rfl

lemma find?_sexpire (s : Store) (k k' : String) (ttl : Nat) :
    (sexpire s k ttl).find? (fun e => e.1 = k') =
      ((s.find? (fun e => e.1 = k')).map
        (fun e => if e.1 = k then (e.1, e.2.1, ttl) else e)) := by
  induction s with
  | nil => rfl
  | cons e t ih =>
    show ((if e.1 = k then (e.1, e.2.1, ttl) else e) :: sexpire t k ttl).find?
        (fun e => e.1 = k') = _
    have hfst : (if e.1 = k then (e.1, e.2.1, ttl) else e).1 = e.1 := by
      by_cases h2 : e.1 = k
      · rw [if_pos h2]
      · rw [if_neg h2]
    by_cases h : e.1 = k'
    · rw [List.find?_cons_of_pos _ (by simp only [hfst]; simp [h]),
        List.find?_cons_of_pos _ (by simp [h])]
      rfl
    · rw [List.find?_cons_of_neg _ (by simp only [hfst]; simp [h]),
        List.find?_cons_of_neg _ (by simp [h]), ih]

lemma sget_sexpire (s : Store) (k k' : String) (ttl : Nat) :
    sget (sexpire s k ttl) k' = sget s k' := by
  rw [sget, sget, find?_sexpire]
  cases s.find? (fun e => e.1 = k') with
  | none => rfl
  | some e =>
    by_cases h : e.1 = k <;> simp [h]

lemma sentry_sexpire_other (s : Store) (k k' : String) (ttl : Nat)
    (h : k' ≠ k) :
    sentry (sexpire s k ttl) k' = sentry s k' := by
  rw [sentry, sentry, find?_sexpire]
  cases hf : s.find? (fun e => e.1 = k') with
  | none => rfl
  | some e =>
    have he : e.1 = k' := by
      have := List.find?_some hf
      simpa using this
    have : ¬ (e.1 = k) := by
      rw [he]
      exact h
    simp [this]

lemma sttl_sexpire_self (s : Store) (k : String) (ttl : Nat)
    (h : sexists s k = true) :
    sttl (sexpire s k ttl) k = some ttl := by
  rw [sttl, find?_sexpire]
  rw [sexists] at h
  cases hf : s.find? (fun e => e.1 = k) with
  | none =>
    rw [hf] at h
    cases h
  | some e =>
    have he : e.1 = k := by
      have := List.find?_some hf
      simpa using this
    simp [he]

lemma sexists_sexpire (s : Store) (k k' : String) (ttl : Nat) :
    sexists (sexpire s k ttl) k' = sexists s k' := by
  rw [sexists, sexists, find?_sexpire]
  cases s.find? (fun e => e.1 = k') <;> simp

lemma sexists_of_sget {s : Store} {k v : String} (h : sget s k = some v) :
    sexists s k = true := by
  rw [sget] at h
  rw [sexists]
  cases hf : s.find? (fun e => e.1 = k) with
  | none =>
    rw [hf] at h
    cases h
  | some e => rfl

/-! ## splitFirst lemmas -/

lemma splitFirst_none_not_mem {c : Char} :
    ∀ {l : List Char}, splitFirst c l = none → c ∉ l := by
  intro l
  induction l with
  | nil =>
    intro _ h
    cases h
  | cons x xs ih =>
    intro hs hm
    rw [splitFirst] at hs
    by_cases hx : x = c
    · rw [if_pos hx] at hs
      cases hs
    · rw [if_neg hx] at hs
      have hs2 : splitFirst c xs = none := Option.map_eq_none'.mp hs
      rcases List.mem_cons.mp hm with rfl | hm
      · exact hx rfl
      · exact ih hs2 hm

lemma splitFirst_fst_not_mem {c : Char} :
    ∀ {l a b : List Char}, splitFirst c l = some (a, b) → c ∉ a := by
  intro l
  induction l with
  | nil =>
    intro a b h
    cases h
  | cons x xs ih =>
    intro a b hs hm
    rw [splitFirst] at hs
    by_cases hx : x = c
    · rw [if_pos hx] at hs
      have h1 : (([] : List Char), xs) = (a, b) := Option.some.inj hs
      have h2 : ([] : List Char) = a := congrArg Prod.fst h1
      rw [← h2] at hm
      cases hm
    · rw [if_neg hx] at hs
      obtain ⟨p, hp1, hp2⟩ := Option.map_eq_some'.mp hs
      have h2 : x :: p.1 = a := congrArg Prod.fst hp2
      rw [← h2] at hm
      rcases List.mem_cons.mp hm with rfl | hm
      · exact hx rfl
      · exact ih (a := p.1) (b := p.2) (by rw [hp1]) hm

lemma splitFirst_eq_append {c : Char} :
    ∀ {l a b : List Char}, splitFirst c l = some (a, b) → l = a ++ c :: b := by
  intro l
  induction l with
  | nil =>
    intro a b h
    cases h
  | cons x xs ih =>
    intro a b hs
    rw [splitFirst] at hs
    by_cases hx : x = c
    · rw [if_pos hx] at hs
      have h1 : (([] : List Char), xs) = (a, b) := Option.some.inj hs
      have h2 : ([] : List Char) = a := congrArg Prod.fst h1
      have h3 : xs = b := congrArg Prod.snd h1
      rw [← h2, ← h3, hx]
      rfl
    · rw [if_neg hx] at hs
      obtain ⟨p, hp1, hp2⟩ := Option.map_eq_some'.mp hs
      have h2 : x :: p.1 = a := congrArg Prod.fst hp2
      have h3 : p.2 = b := congrArg Prod.snd hp2
      have h4 : xs = p.1 ++ c :: p.2 := ih (a := p.1) (b := p.2) (by rw [hp1])
      rw [← h2, ← h3, h4]
      rfl

/-! ## Helper lemmas for the routes -/

lemma data_eq_nil {s : String} (h : s.data = []) : s = "" := by
  cases s
  rw [show ("" : String) = String.mk [] from rfl]
  exact congrArg String.mk h

lemma ne_empty_of_data {s : String} (h : s.data ≠ []) : s ≠ "" :=
  fun he => h (by rw [he])

lemma data_ne_nil {s : String} (h : s ≠ "") : s.data ≠ [] :=
  fun hd => h (data_eq_nil hd)

/-- The normalized path is never the empty string (so the falsy check
in `redirect_short` never fires on a stored path). -/
lemma extract_path_ne_empty (t : String) :
    extract_path_preserving_query t ≠ "" := by
  rw [extract_path_preserving_query]
  by_cases h : startswith t "/" = true
  · rw [if_pos h]
    intro he
    rw [he] at h
    exact absurd h (by decide)
  · rw [if_neg h]
    have hpath : (if (urlparse t).path = "" then "/" else (urlparse t).path).data ≠ [] := by
      by_cases hp : (urlparse t).path = ""
      · rw [if_pos hp]
        decide
      · rw [if_neg hp]
        exact data_ne_nil hp
    by_cases hq : (urlparse t).query ≠ ""
    · rw [if_pos hq]
      apply ne_empty_of_data
      rw [String.data_append, String.data_append]
      intro hc
      rcases List.append_eq_nil.mp hc with ⟨hc1, _⟩
      rcases List.append_eq_nil.mp hc1 with ⟨hc2, _⟩
      exact hpath hc2
    · rw [if_neg hq]
      exact ne_empty_of_data hpath

/-- A code drawn from the base-62 alphabet never collides with a
reverse-mapping key: the reverse key contains a colon after the prefix
and the alphabet has no colon. -/
lemma code_key_ne_rev_key (cfg : Config) (code path : String)
    (hc : ∀ ch ∈ code.data, ch ∈ BASE62) :
    cfg.key_pfx ++ code ≠ cfg.key_pfx ++ "path:" ++ path := by
  intro he
  have hd : cfg.key_pfx.data ++ code.data =
      cfg.key_pfx.data ++ ("path:".data ++ path.data) := by
    have h1 := congrArg String.data he
    rw [String.data_append, String.data_append, String.data_append,
      List.append_assoc] at h1
    exact h1
  have hcode : code.data = "path:".data ++ path.data :=
    List.append_cancel_left hd
  have hmem : ':' ∈ code.data := by
    rw [hcode]
    exact List.mem_append.mpr (Or.inl (by decide))
  exact absurd (hc ':' hmem) (by decide)

lemma new_code_subset (r len : Nat) :
    ∀ c ∈ (new_code r len).data, c ∈ BASE62 := by
  intro c hc
  rw [new_code] at hc
  by_cases h : (to_base62 r).length < len
  · rw [if_pos h] at hc
    rcases List.mem_append.mp hc with hrep | hbd
    · rw [List.eq_of_mem_replicate hrep]
      decide
    · exact to_base62_subset r c hbd
  · rw [if_neg h] at hc
    exact to_base62_subset r c (List.take_subset _ _ hc)

lemma new_code_length (r len : Nat) : (new_code r len).length = len := by
  show (new_code r len).data.length = len
  rw [new_code]
  by_cases h : (to_base62 r).length < len
  · rw [if_pos h]
    show (List.replicate (len - (to_base62 r).length) '0' ++
      (to_base62 r).data).length = len
    rw [List.length_append, List.length_replicate]
    have : (to_base62 r).data.length = (to_base62 r).length := rfl
    omega
  · rw [if_neg h]
    show ((to_base62 r).data.take len).length = len
    rw [List.length_take]
    have : (to_base62 r).data.length = (to_base62 r).length := rfl
    omega

lemma new_code_ne_empty (r len : Nat) (h : 1 ≤ len) : new_code r len ≠ "" := by
  apply ne_empty_of_data
  intro hd
  have := new_code_length r len
  rw [show (new_code r len).length = (new_code r len).data.length from rfl,
    hd, List.length_nil] at this
  omega

/-! ## allocLoop lemmas -/

lemma allocLoop_succ_eq (cfg : Config) (path revKey : String)
    (rand : Nat → Nat) (s : Store) (i f : Nat) :
    allocLoop cfg path revKey rand s i (f + 1) =
      (if (ssetnx s (cfg.key_pfx ++ new_code (rand i) cfg.code_len)
            path cfg.ttl).1 then
        (.success 201 (new_code (rand i) cfg.code_len) path,
         sset (ssetnx s (cfg.key_pfx ++ new_code (rand i) cfg.code_len)
            path cfg.ttl).2
           revKey (new_code (rand i) cfg.code_len) cfg.ttl, i + 1)
       else allocLoop cfg path revKey rand
         (ssetnx s (cfg.key_pfx ++ new_code (rand i) cfg.code_len)
            path cfg.ttl).2 (i + 1) f) := rfl

lemma allocLoop_step_fail {cfg : Config} {path revKey : String}
    {rand : Nat → Nat} {s : Store} {i f : Nat}
    (hex : sexists s (cfg.key_pfx ++ new_code (rand i) cfg.code_len) = true) :
    allocLoop cfg path revKey rand s i (f + 1) =
      allocLoop cfg path revKey rand s (i + 1) f := by
  have hnx : ssetnx s (cfg.key_pfx ++ new_code (rand i) cfg.code_len)
      path cfg.ttl = (false, s) := by
    rw [ssetnx, if_pos hex]
  rw [allocLoop_succ_eq, hnx]
  rfl

lemma allocLoop_step_succ {cfg : Config} {path revKey : String}
    {rand : Nat → Nat} {s : Store} {i f : Nat}
    (hex : ¬ sexists s (cfg.key_pfx ++ new_code (rand i) cfg.code_len) = true) :
    allocLoop cfg path revKey rand s i (f + 1) =
      (.success 201 (new_code (rand i) cfg.code_len) path,
       sset ((cfg.key_pfx ++ new_code (rand i) cfg.code_len, path, cfg.ttl)
          :: s) revKey (new_code (rand i) cfg.code_len) cfg.ttl, i + 1) := by
  have hnx : ssetnx s (cfg.key_pfx ++ new_code (rand i) cfg.code_len)
      path cfg.ttl =
      (true, (cfg.key_pfx ++ new_code (rand i) cfg.code_len, path, cfg.ttl)
        :: s) := by
    rw [ssetnx, if_neg hex]
  rw [allocLoop_succ_eq, hnx]
  rfl

lemma allocLoop_allFail (cfg : Config) (path revKey : String)
    (rand : Nat → Nat) :
    ∀ fuel i s,
      (∀ j, i ≤ j → j < i + fuel →
        sexists s (cfg.key_pfx ++ new_code (rand j) cfg.code_len) = true) →
      allocLoop cfg path revKey rand s i fuel =
        (.error 503 exhaustedMsg, s, i + fuel) := by
  intro fuel
  induction fuel with
  | zero =>
    intro i s _
    rfl
  | succ f ih =>
    intro i s h
    rw [allocLoop_step_fail (h i le_rfl (by omega)),
      ih (i + 1) s (fun j hj1 hj2 => h j (by omega) (by omega)),
      show i + 1 + f = i + (f + 1) from by omega]

lemma allocLoop_created (cfg : Config) (path revKey : String)
    (rand : Nat → Nat) :
    ∀ fuel i s st c p,
      (allocLoop cfg path revKey rand s i fuel).1 = .success st c p →
      st = 201 ∧ p = path ∧ (∃ k, c = new_code (rand k) cfg.code_len) ∧
      sexists s (cfg.key_pfx ++ c) = false ∧
      (allocLoop cfg path revKey rand s i fuel).2.1 =
        sset ((cfg.key_pfx ++ c, path, cfg.ttl) :: s) revKey c cfg.ttl := by
  intro fuel
  induction fuel with
  | zero =>
    intro i s st c p h
    exact ShortenOutcome.noConfusion h
  | succ f ih =>
    intro i s st c p h
    by_cases hex :
        sexists s (cfg.key_pfx ++ new_code (rand i) cfg.code_len) = true
    · rw [allocLoop_step_fail hex] at h ⊢
      exact ih (i + 1) s st c p h
    · rw [allocLoop_step_succ hex] at h ⊢
      have h' : ShortenOutcome.success 201 (new_code (rand i) cfg.code_len) path =
          ShortenOutcome.success st c p := h
      obtain ⟨h1, h2, h3⟩ := (ShortenOutcome.success.injEq _ _ _ _ _ _).mp h'
      refine ⟨h1.symm, h3.symm, ⟨i, h2.symm⟩, ?_, ?_⟩
      · rw [← h2]
        simpa using hex
      · show sset ((cfg.key_pfx ++ new_code (rand i) cfg.code_len, path, cfg.ttl)
            :: s) revKey (new_code (rand i) cfg.code_len) cfg.ttl = _
        rw [h2]

lemma allocLoop_not_400 (cfg : Config) (path revKey : String)
    (rand : Nat → Nat) :
    ∀ fuel i s,
      (allocLoop cfg path revKey rand s i fuel).1 =
          .error 503 exhaustedMsg ∨
      ∃ c, (allocLoop cfg path revKey rand s i fuel).1 =
          .success 201 c path := by
  intro fuel
  induction fuel with
  | zero =>
    intro i s
    exact Or.inl rfl
  | succ f ih =>
    intro i s
    by_cases hex :
        sexists s (cfg.key_pfx ++ new_code (rand i) cfg.code_len) = true
    · rw [allocLoop_step_fail hex]
      exact ih (i + 1) s
    · rw [allocLoop_step_succ hex]
      exact Or.inr ⟨new_code (rand i) cfg.code_len, rfl⟩

/-! ## api_shorten branch lemmas -/

lemma api_shorten_valid_eq {cfg : Config} {store? : Option Store}
    {input : Option String} {req : Req} {rand : Nat → Nat}
    (hne : pyStrip (input.getD "") ≠ "")
    (hso : same_origin req (pyStrip (input.getD "")) = true) :
    api_shorten cfg store? input req rand =
      (match store? with
       | none => (.infraFailure, none, 0)
       | some s =>
         ((api_shorten_core cfg s (pyStrip (input.getD "")) rand).1,
          some (api_shorten_core cfg s (pyStrip (input.getD "")) rand).2.1,
          (api_shorten_core cfg s (pyStrip (input.getD "")) rand).2.2)) := by
  show (if pyStrip (input.getD "") = "" then
      (.error 400 "url is required", store?, 0)
    else if !(same_origin req (pyStrip (input.getD ""))) then
      (.error 400 "only same-origin URLs are allowed", store?, 0)
    else match store? with
      | none => (.infraFailure, none, 0)
      | some s =>
        let r := api_shorten_core cfg s (pyStrip (input.getD "")) rand
        (r.1, some r.2.1, r.2.2)) = _
  rw [if_neg hne, hso]
  rfl

lemma core_alloc_of_rev_none {cfg : Config} {s : Store} {raw : String}
    {rand : Nat → Nat}
    (hrev : sget s (cfg.key_pfx ++ "path:" ++
      extract_path_preserving_query raw) = none) :
    api_shorten_core cfg s raw rand =
      allocLoop cfg (extract_path_preserving_query raw)
        (cfg.key_pfx ++ "path:" ++ extract_path_preserving_query raw)
        rand s 0 8 := by
  simp only [api_shorten_core]
  rw [hrev]
  rfl

lemma core_alloc_of_fwd_dead {cfg : Config} {s : Store} {raw c : String}
    {rand : Nat → Nat}
    (hrev : sget s (cfg.key_pfx ++ "path:" ++
      extract_path_preserving_query raw) = some c)
    (hdead : sexists s (cfg.key_pfx ++ c) = false) :
    api_shorten_core cfg s raw rand =
      allocLoop cfg (extract_path_preserving_query raw)
        (cfg.key_pfx ++ "path:" ++ extract_path_preserving_query raw)
        rand s 0 8 := by
  simp only [api_shorten_core]
  rw [hrev]
  by_cases hc : c = ""
  · subst hc
    rfl
  · show (if ((some c).getD "" ≠ "") then _ else _) = _
    rw [if_pos (by simpa using hc)]
    show (if sexists s (cfg.key_pfx ++ (some c).getD "") = true then _ else _) = _
    rw [if_neg (by simpa using hdead)]

lemma core_reused {cfg : Config} {s : Store} {raw c : String}
    {rand : Nat → Nat}
    (hrev : sget s (cfg.key_pfx ++ "path:" ++
      extract_path_preserving_query raw) = some c)
    (hc : c ≠ "")
    (hlive : sexists s (cfg.key_pfx ++ c) = true) :
    api_shorten_core cfg s raw rand =
      (.success 200 c (extract_path_preserving_query raw),
       sexpire (sexpire s (cfg.key_pfx ++ c) cfg.ttl)
         (cfg.key_pfx ++ "path:" ++ extract_path_preserving_query raw)
         cfg.ttl, 0) := by
  simp only [api_shorten_core]
  rw [hrev]
  show (if ((some c).getD "" ≠ "") then _ else _) = _
  rw [if_pos (by simpa using hc)]
  show (if sexists s (cfg.key_pfx ++ (some c).getD "") = true then _ else _) = _
  rw [if_pos (by simpa using hlive)]
  rfl

lemma core_not_400 (cfg : Config) (s : Store) (raw : String)
    (rand : Nat → Nat) :
    ∀ m, (api_shorten_core cfg s raw rand).1 ≠ .error 400 m := by
  intro m
  have halloc : ∀ t : Store,
      (allocLoop cfg (extract_path_preserving_query raw)
        (cfg.key_pfx ++ "path:" ++ extract_path_preserving_query raw)
        rand t 0 8).1 ≠ .error 400 m := by
    intro t
    rcases allocLoop_not_400 cfg (extract_path_preserving_query raw)
        (cfg.key_pfx ++ "path:" ++ extract_path_preserving_query raw)
        rand 8 0 t with h | ⟨c, h⟩ <;> rw [h]
    · intro he
      have := (ShortenOutcome.error.injEq _ _ _ _).mp he
      omega
    · exact fun he => ShortenOutcome.noConfusion he
  cases hrev : sget s (cfg.key_pfx ++ "path:" ++
      extract_path_preserving_query raw) with
  | none =>
    rw [core_alloc_of_rev_none hrev]
    exact halloc s
  | some c =>
    by_cases hc : c = ""
    · subst hc
      have : api_shorten_core cfg s raw rand =
          allocLoop cfg (extract_path_preserving_query raw)
            (cfg.key_pfx ++ "path:" ++ extract_path_preserving_query raw)
            rand s 0 8 := by
        simp only [api_shorten_core]
        rw [hrev]
        rfl
      rw [this]
      exact halloc s
    · by_cases hlive : sexists s (cfg.key_pfx ++ c) = true
      · rw [core_reused hrev hc hlive]
        exact fun he => ShortenOutcome.noConfusion he
      · rw [core_alloc_of_fwd_dead hrev (by simpa using hlive)]
        exact halloc s

/-! ## Claim C8: resolver frame -/

/-- C8: `redirect_short` either misses (forward key absent) and leaves
the store completely unchanged, or hits and returns the stored path
after refreshing only the forward key's ttl to the configured
lifetime: the hit leaves the value of the forward key unchanged, sets
its ttl to `cfg.ttl`, and leaves every other key's binding (value and
ttl) untouched — in particular the reverse mapping is never read for
mutation or refreshed. -/
theorem redirect_short_frame (cfg : Config) (s : Store) (code : String) :
    (sget s (cfg.key_pfx ++ code) = none →
      redirect_short cfg (some s) code = (.notFound, some s)) ∧
    (∀ p, sget s (cfg.key_pfx ++ code) = some p → p ≠ "" →
      redirect_short cfg (some s) code =
        (.redirect p, some (sexpire s (cfg.key_pfx ++ code) cfg.ttl)) ∧
      sget (sexpire s (cfg.key_pfx ++ code) cfg.ttl)
        (cfg.key_pfx ++ code) = some p ∧
      sttl (sexpire s (cfg.key_pfx ++ code) cfg.ttl)
        (cfg.key_pfx ++ code) = some cfg.ttl ∧
      ∀ k, k ≠ cfg.key_pfx ++ code →
        sentry (sexpire s (cfg.key_pfx ++ code) cfg.ttl) k = sentry s k) := by
  have hdef : redirect_short cfg (some s) code =
      (match sget s (cfg.key_pfx ++ code) with
       | none => (.notFound, some s)
       | some path =>
           if path = "" then (.notFound, some s)
           else (.redirect path,
             some (sexpire s (cfg.key_pfx ++ code) cfg.ttl))) := rfl
  constructor
  · intro h
    rw [hdef, h]
  · intro p hp hpne
    refine ⟨?_, ?_, ?_, ?_⟩
    · rw [hdef, hp]
      show (if p = "" then _ else _) = _
      rw [if_neg hpne]
    · rw [sget_sexpire, hp]
    · exact sttl_sexpire_self s (cfg.key_pfx ++ code) cfg.ttl
        (sexists_of_sget hp)
    · intro k hk
      exact sentry_sexpire_other s (cfg.key_pfx ++ code) k cfg.ttl hk

/-- Witness for `redirect_short_frame`: a miss and a hit on a concrete
store. -/
theorem redirect_short_frame_witness :
    redirect_short ⟨"su:", 604800, 8⟩ (some [("su:abc", "/x", 17)]) "zzz" =
      (.notFound, some [("su:abc", "/x", 17)]) ∧
    redirect_short ⟨"su:", 604800, 8⟩ (some [("su:abc", "/x", 17)]) "abc" =
      (.redirect "/x", some [("su:abc", "/x", 604800)]) := by
  constructor
  · exact (redirect_short_frame ⟨"su:", 604800, 8⟩
      [("su:abc", "/x", 17)] "zzz").1 (by decide)
  · have h := ((redirect_short_frame ⟨"su:", 604800, 8⟩
      [("su:abc", "/x", 17)] "abc").2 "/x" (by decide) (by decide)).1
    rw [h]
    rfl

/-! ## Claim C5: exhaustion -/

/-- C5: when the reverse lookup misses and the conditional-set finds
every one of the 8 generated forward keys already present,
`api_shorten` performs exactly 8 generation attempts (draw indices 0
through 7), returns the 503 AllocationExhausted error with message
"could not allocate short code, try again", and leaves the store
completely unchanged — in particular it writes no reverse mapping. -/
theorem api_shorten_exhausted (cfg : Config) (s : Store)
    (input : Option String) (req : Req) (rand : Nat → Nat)
    (hne : pyStrip (input.getD "") ≠ "")
    (hso : same_origin req (pyStrip (input.getD "")) = true)
    (hrev : sget s (cfg.key_pfx ++ "path:" ++
      extract_path_preserving_query (pyStrip (input.getD ""))) = none)
    (hcol : ∀ j, j < 8 →
      sexists s (cfg.key_pfx ++ new_code (rand j) cfg.code_len) = true) :
    api_shorten cfg (some s) input req rand =
      (.error 503 exhaustedMsg, some s, 8) ∧
    exhaustedMsg = "could not allocate short code, try again" := by
  refine ⟨?_, rfl⟩
  rw [api_shorten_valid_eq hne hso]
  show ((api_shorten_core cfg s (pyStrip (input.getD "")) rand).1,
    some (api_shorten_core cfg s (pyStrip (input.getD "")) rand).2.1,
    (api_shorten_core cfg s (pyStrip (input.getD "")) rand).2.2) = _
  rw [core_alloc_of_rev_none hrev,
    allocLoop_allFail cfg (extract_path_preserving_query (pyStrip (input.getD "")))
      (cfg.key_pfx ++ "path:" ++
        extract_path_preserving_query (pyStrip (input.getD "")))
      rand 8 0 s (fun j _ hj => hcol j (by omega))]

/-- Witness for `api_shorten_exhausted`: the single code that the
constant draw 5 produces is pre-seeded, so all 8 attempts collide. -/
theorem api_shorten_exhausted_witness :
    api_shorten ⟨"su:", 604800, 8⟩ (some [("su:00000005", "/x", 1)])
      (some "/y") ⟨"https", "app.example"⟩ (fun _ => 5) =
      (.error 503 exhaustedMsg, some [("su:00000005", "/x", 1)], 8) :=
  (api_shorten_exhausted ⟨"su:", 604800, 8⟩ [("su:00000005", "/x", 1)]
    (some "/y") ⟨"https", "app.example"⟩ (fun _ => 5)
    (by decide) (by decide) (by decide) (by decide)).1

/-! ## Claim C7: validation -/

/-- C7: an empty (or missing) target is rejected with 400
"url is required"; a non-empty target failing the same-origin check is
rejected with 400 "only same-origin URLs are allowed"; in both cases
the store is returned untouched (no read or write occurred — the
result holds even when no store client exists) and no random draw is
made; every other target passes validation: the outcome is never a 400
validation error. -/
theorem api_shorten_validation (cfg : Config) (store? : Option Store)
    (input : Option String) (req : Req) (rand : Nat → Nat) :
    (pyStrip (input.getD "") = "" →
      api_shorten cfg store? input req rand =
        (.error 400 "url is required", store?, 0)) ∧
    (pyStrip (input.getD "") ≠ "" →
      same_origin req (pyStrip (input.getD "")) = false →
      api_shorten cfg store? input req rand =
        (.error 400 "only same-origin URLs are allowed", store?, 0)) ∧
    (∀ s, store? = some s → pyStrip (input.getD "") ≠ "" →
      same_origin req (pyStrip (input.getD "")) = true →
      ∀ m, (api_shorten cfg store? input req rand).1 ≠
        ShortenOutcome.error 400 m) := by
  have hdef : api_shorten cfg store? input req rand =
      (if pyStrip (input.getD "") = "" then
        (.error 400 "url is required", store?, 0)
      else if !(same_origin req (pyStrip (input.getD ""))) then
        (.error 400 "only same-origin URLs are allowed", store?, 0)
      else match store? with
        | none => (.infraFailure, none, 0)
        | some s =>
          let r := api_shorten_core cfg s (pyStrip (input.getD "")) rand
          (r.1, some r.2.1, r.2.2)) := rfl
  refine ⟨?_, ?_, ?_⟩
  · intro h
    rw [hdef, if_pos h]
  · intro h1 h2
    rw [hdef, if_neg h1, h2]
    rfl
  · intro s hs h1 h2 m
    subst hs
    rw [api_shorten_valid_eq h1 h2]
    exact core_not_400 cfg s (pyStrip (input.getD "")) rand m

/-- Witness for `api_shorten_validation`: all three branches at
concrete inputs. -/
theorem api_shorten_validation_witness :
    api_shorten ⟨"su:", 604800, 8⟩ (some []) (some "  ")
      ⟨"https", "app.example"⟩ (fun _ => 5) =
      (.error 400 "url is required", some [], 0) ∧
    api_shorten ⟨"su:", 604800, 8⟩ (some []) (some "https://evil.example/x")
      ⟨"https", "app.example"⟩ (fun _ => 5) =
      (.error 400 "only same-origin URLs are allowed", some [], 0) ∧
    (api_shorten ⟨"su:", 604800, 8⟩ (some []) (some "/ok")
      ⟨"https", "app.example"⟩ (fun _ => 5)).1 ≠
      ShortenOutcome.error 400 "url is required" := by
  refine ⟨?_, ?_, ?_⟩
  · exact (api_shorten_validation ⟨"su:", 604800, 8⟩ (some []) (some "  ")
      ⟨"https", "app.example"⟩ (fun _ => 5)).1 (by decide)
  · exact (api_shorten_validation ⟨"su:", 604800, 8⟩ (some [])
      (some "https://evil.example/x") ⟨"https", "app.example"⟩
      (fun _ => 5)).2.1 (by decide) (by decide)
  · exact (api_shorten_validation ⟨"su:", 604800, 8⟩ (some []) (some "/ok")
      ⟨"https", "app.example"⟩ (fun _ => 5)).2.2 [] rfl (by decide)
      (by decide) "url is required"

/-! ## Claim C9: backend unavailable -/

/-- C9: when no usable store client exists (the key-value store cannot
be reached), both `redirect_short` and — once validation has passed
and the store is actually needed — `api_shorten` surface the distinct
infrastructure-failure outcome, which is a different constructor from
NotFound, from every validation error, and from every success, so a
store outage is distinguishable at the caller boundary. -/
theorem backend_unavailable (cfg : Config) (code : String)
    (input : Option String) (req : Req) (rand : Nat → Nat)
    (hne : pyStrip (input.getD "") ≠ "")
    (hso : same_origin req (pyStrip (input.getD "")) = true) :
    redirect_short cfg none code = (.infraFailure, none) ∧
    api_shorten cfg none input req rand = (.infraFailure, none, 0) ∧
    (∀ p, (ResolveOutcome.infraFailure : ResolveOutcome) ≠ .redirect p) ∧
    (ResolveOutcome.infraFailure : ResolveOutcome) ≠ .notFound ∧
    (∀ st m, (ShortenOutcome.infraFailure : ShortenOutcome) ≠ .error st m) ∧
    (∀ st c p,
      (ShortenOutcome.infraFailure : ShortenOutcome) ≠ .success st c p) := by
  refine ⟨rfl, ?_, ?_, ?_, ?_, ?_⟩
  · rw [api_shorten_valid_eq hne hso]
  · exact fun p h => ResolveOutcome.noConfusion h
  · exact fun h => ResolveOutcome.noConfusion h
  · exact fun st m h => ShortenOutcome.noConfusion h
  · exact fun st c p h => ShortenOutcome.noConfusion h

/-- Witness for `backend_unavailable` at a concrete valid input. -/
theorem backend_unavailable_witness :
    redirect_short ⟨"su:", 604800, 8⟩ none "abc" = (.infraFailure, none) ∧
    api_shorten ⟨"su:", 604800, 8⟩ none (some "/x")
      ⟨"https", "app.example"⟩ (fun _ => 5) = (.infraFailure, none, 0) :=
  ⟨(backend_unavailable ⟨"su:", 604800, 8⟩ "abc" (some "/x")
      ⟨"https", "app.example"⟩ (fun _ => 5) (by decide) (by decide)).1,
   (backend_unavailable ⟨"su:", 604800, 8⟩ "abc" (some "/x")
      ⟨"https", "app.example"⟩ (fun _ => 5) (by decide) (by decide)).2.1⟩

/-! ## Fragment lemmas -/

lemma splitOn_fst_not_mem (c : Char) (l : List Char) : c ∉ (splitOn c l).1 := by
  cases h : splitFirst c l with
  | none =>
    have he : splitOn c l = (l, []) := by
      unfold splitOn
      rw [h]
    rw [he]
    exact splitFirst_none_not_mem h
  | some ab =>
    obtain ⟨a, b⟩ := ab
    have he : splitOn c l = (a, b) := by
      unfold splitOn
      rw [h]
    rw [he]
    exact splitFirst_fst_not_mem h

lemma splitOn_fst_subset (c : Char) (l : List Char) :
    ∀ x ∈ (splitOn c l).1, x ∈ l := by
  intro x hx
  cases h : splitFirst c l with
  | none =>
    have he : splitOn c l = (l, []) := by
      unfold splitOn
      rw [h]
    rw [he] at hx
    exact hx
  | some ab =>
    obtain ⟨a, b⟩ := ab
    have he : splitOn c l = (a, b) := by
      unfold splitOn
      rw [h]
    rw [he] at hx
    rw [splitFirst_eq_append h]
    exact List.mem_append.mpr (Or.inl hx)

lemma splitOn_snd_subset (c : Char) (l : List Char) :
    ∀ x ∈ (splitOn c l).2, x ∈ l := by
  intro x hx
  cases h : splitFirst c l with
  | none =>
    have he : splitOn c l = (l, []) := by
      unfold splitOn
      rw [h]
    rw [he] at hx
    cases hx
  | some ab =>
    obtain ⟨a, b⟩ := ab
    have he : splitOn c l = (a, b) := by
      unfold splitOn
      rw [h]
    rw [he] at hx
    rw [splitFirst_eq_append h]
    exact List.mem_append.mpr (Or.inr (List.mem_cons_of_mem c hx))

lemma splitParams_fst_subset (l : List Char) :
    ∀ x ∈ (splitParams l).1, x ∈ l := by
  intro x hx
  cases h1 : splitFirst '/' l.reverse with
  | none =>
    cases h2 : splitFirst ';' l with
    | none =>
      have he : splitParams l = (l, []) := by
        unfold splitParams
        rw [h1, h2]
      rw [he] at hx
      exact hx
    | some pq =>
      obtain ⟨p, q⟩ := pq
      have he : splitParams l = (p, q) := by
        unfold splitParams
        rw [h1, h2]
      rw [he] at hx
      rw [splitFirst_eq_append h2]
      exact List.mem_append.mpr (Or.inl hx)
  | some rr =>
    obtain ⟨rb, ra⟩ := rr
    have hl : l = ra.reverse ++ '/' :: rb.reverse := by
      have := splitFirst_eq_append h1
      have h3 := congrArg List.reverse this
      rw [List.reverse_reverse, List.reverse_append, List.reverse_cons,
        List.append_assoc] at h3
      simpa using h3
    cases h2 : splitFirst ';' rb.reverse with
    | none =>
      have he : splitParams l = (l, []) := by
        unfold splitParams
        rw [h1]
        show (match splitFirst ';' rb.reverse with
              | some (p, q) => (ra.reverse ++ '/' :: p, q)
              | none => (l, [])) = (l, [])
        rw [h2]
      rw [he] at hx
      exact hx
    | some pq =>
      obtain ⟨p, q⟩ := pq
      have he : splitParams l = (ra.reverse ++ '/' :: p, q) := by
        unfold splitParams
        rw [h1]
        show (match splitFirst ';' rb.reverse with
              | some (p, q) => (ra.reverse ++ '/' :: p, q)
              | none => (l, [])) = (ra.reverse ++ '/' :: p, q)
        rw [h2]
      rw [he] at hx
      rw [hl]
      rcases List.mem_append.mp hx with hx1 | hx2
      · exact List.mem_append.mpr (Or.inl hx1)
      · rcases List.mem_cons.mp hx2 with rfl | hx3
        · exact List.mem_append.mpr (Or.inr (List.mem_cons_self _ _))
        · refine List.mem_append.mpr (Or.inr (List.mem_cons_of_mem _ ?_))
          rw [splitFirst_eq_append h2]
          exact List.mem_append.mpr (Or.inl hx3)

lemma urlsplitCore_no_hash (l0 : List Char) :
    '#' ∉ (urlsplitCore l0).path.data ∧ '#' ∉ (urlsplitCore l0).query.data := by
  have hpath : (urlsplitCore l0).path.data =
      (splitOn '?'
        (splitOn '#' (netlocSplit (schemeSplit (cleanUrl l0)).2).2).1).1 := rfl
  have hquery : (urlsplitCore l0).query.data =
      (splitOn '?'
        (splitOn '#' (netlocSplit (schemeSplit (cleanUrl l0)).2).2).1).2 := rfl
  have hnou : '#' ∉ (splitOn '#' (netlocSplit (schemeSplit (cleanUrl l0)).2).2).1 :=
    splitOn_fst_not_mem '#' _
  constructor
  · rw [hpath]
    intro hx
    exact hnou (splitOn_fst_subset '?' _ '#' hx)
  · rw [hquery]
    intro hx
    exact hnou (splitOn_snd_subset '?' _ '#' hx)

lemma urlparse_no_hash (t : String) :
    '#' ∉ (urlparse t).path.data ∧ '#' ∉ (urlparse t).query.data := by
  have hbase := urlsplitCore_no_hash t.data
  have hdef : urlparse t =
      (if (urlsplitCore t.data).scheme ∈ usesParams ∧
          ';' ∈ (urlsplitCore t.data).path.data then
        { urlsplitCore t.data with
          path := String.mk (splitParams (urlsplitCore t.data).path.data).1,
          params := String.mk (splitParams (urlsplitCore t.data).path.data).2 }
      else urlsplitCore t.data) := rfl
  rw [hdef]
  by_cases hc : (urlsplitCore t.data).scheme ∈ usesParams ∧
      ';' ∈ (urlsplitCore t.data).path.data
  · rw [if_pos hc]
    refine ⟨?_, hbase.2⟩
    intro hx
    exact hbase.1 (splitParams_fst_subset _ '#' hx)
  · rw [if_neg hc]
    exact hbase

/-! ## Claim C3: fragments -/

/-- C3 counterexample: for the root-relative input `"/a#b"`,
`extract_path_preserving_query` returns the input unchanged, fragment
included — refuting the claim that every normalized path is free of
fragment identifiers. -/
theorem fragment_kept_on_root_relative :
    startswith "/a#b" "/" = true ∧
    extract_path_preserving_query "/a#b" = "/a#b" ∧
    '#' ∈ (extract_path_preserving_query "/a#b").data := by
  refine ⟨by decide, by decide, by decide⟩

/-- C3 (amended): for every target that is NOT root-relative, the
normalized path contains no fragment identifier — the `#fragment` part
is discarded by the parse; a root-relative input is returned unchanged,
fragment and all. -/
theorem normalize_no_hash_nonrelative (t : String)
    (h : startswith t "/" = false) :
    '#' ∉ (extract_path_preserving_query t).data := by
  have hdef : extract_path_preserving_query t =
      (if startswith t "/" then t
       else if (urlparse t).query ≠ "" then
         (if (urlparse t).path = "" then "/" else (urlparse t).path) ++
           "?" ++ (urlparse t).query
       else (if (urlparse t).path = "" then "/" else (urlparse t).path)) := rfl
  have hp := urlparse_no_hash t
  have hpath : '#' ∉ (if (urlparse t).path = "" then "/"
      else (urlparse t).path).data := by
    by_cases hq : (urlparse t).path = ""
    · rw [if_pos hq]
      decide
    · rw [if_neg hq]
      exact hp.1
  rw [hdef, if_neg (by rw [h]; exact Bool.false_ne_true)]
  by_cases hq : (urlparse t).query ≠ ""
  · rw [if_pos hq]
    intro hx
    rw [String.data_append, String.data_append] at hx
    rcases List.mem_append.mp hx with hx1 | hx2
    · rcases List.mem_append.mp hx1 with hx3 | hx4
      · exact hpath hx3
      · exact absurd hx4 (by decide)
    · exact hp.2 hx2
  · rw [if_neg hq]
    exact hpath

/-- Witness for `normalize_no_hash_nonrelative` at a concrete
absolute URL carrying a fragment. -/
theorem normalize_no_hash_nonrelative_witness :
    startswith "https://app.example/a?q=1#frag" "/" = false ∧
    '#' ∉ (extract_path_preserving_query "https://app.example/a?q=1#frag").data :=
  ⟨by decide,
   normalize_no_hash_nonrelative "https://app.example/a?q=1#frag" (by decide)⟩

/-! ## Claim C2: open redirect through protocol-relative paths -/

/-- C2 failing input: the target `"//evil.example/x"` begins with `/`,
so `same_origin` accepts it for every request origin and
`extract_path_preserving_query` stores it verbatim; the stored path
begins with `//`, which a browser resolves as a protocol-relative
reference to the host `evil.example` — a third-party destination.  The
full pipeline allocates a code for it and then redirects to it. -/
theorem open_redirect_protocol_relative :
    same_origin ⟨"https", "app.example"⟩ "//evil.example/x" = true ∧
    extract_path_preserving_query "//evil.example/x" = "//evil.example/x" ∧
    startswith "//evil.example/x" "//" = true ∧
    api_shorten ⟨"su:", 604800, 8⟩ (some []) (some "//evil.example/x")
      ⟨"https", "app.example"⟩ (fun _ => 5) =
      (.success 201 "00000005" "//evil.example/x",
       some [("su:path://evil.example/x", "00000005", 604800),
             ("su:00000005", "//evil.example/x", 604800)], 1) ∧
    (redirect_short ⟨"su:", 604800, 8⟩
      (some [("su:path://evil.example/x", "00000005", 604800),
             ("su:00000005", "//evil.example/x", 604800)]) "00000005").1 =
      .redirect "//evil.example/x" := by
  refine ⟨by decide, by decide, by decide, by decide, by decide⟩

/-! ## Invariants of a successful created allocation -/

lemma sttl_sexpire_other (s : Store) (k k' : String) (ttl : Nat)
    (h : k' ≠ k) :
    sttl (sexpire s k ttl) k' = sttl s k' := by
  rw [sttl, sttl, find?_sexpire]
  cases hf : s.find? (fun e => e.1 = k') with
  | none => rfl
  | some e =>
    have he : e.1 = k' := by
      have := List.find?_some hf
      simpa using this
    have : ¬ (e.1 = k) := by
      rw [he]
      exact h
    simp [this]

lemma api_shorten_empty_eq {cfg : Config} {store? : Option Store}
    {input : Option String} {req : Req} {rand : Nat → Nat}
    (h : pyStrip (input.getD "") = "") :
    api_shorten cfg store? input req rand =
      (.error 400 "url is required", store?, 0) := by
  show (if pyStrip (input.getD "") = "" then
      ((.error 400 "url is required", store?, 0) :
        ShortenOutcome × Option Store × Nat)
    else if !(same_origin req (pyStrip (input.getD ""))) then
      (.error 400 "only same-origin URLs are allowed", store?, 0)
    else match store? with
      | none => (.infraFailure, none, 0)
      | some s =>
        let r := api_shorten_core cfg s (pyStrip (input.getD "")) rand
        (r.1, some r.2.1, r.2.2)) = _
  rw [if_pos h]

lemma api_shorten_cross_eq {cfg : Config} {store? : Option Store}
    {input : Option String} {req : Req} {rand : Nat → Nat}
    (h1 : pyStrip (input.getD "") ≠ "")
    (h2 : same_origin req (pyStrip (input.getD "")) = false) :
    api_shorten cfg store? input req rand =
      (.error 400 "only same-origin URLs are allowed", store?, 0) := by
  show (if pyStrip (input.getD "") = "" then
      ((.error 400 "url is required", store?, 0) :
        ShortenOutcome × Option Store × Nat)
    else if !(same_origin req (pyStrip (input.getD ""))) then
      (.error 400 "only same-origin URLs are allowed", store?, 0)
    else match store? with
      | none => (.infraFailure, none, 0)
      | some s =>
        let r := api_shorten_core cfg s (pyStrip (input.getD "")) rand
        (r.1, some r.2.1, r.2.2)) = _
  rw [if_neg h1, h2]
  rfl

lemma api_shorten_valid_some_eq {cfg : Config} {s : Store}
    {input : Option String} {req : Req} {rand : Nat → Nat}
    (hne : pyStrip (input.getD "") ≠ "")
    (hso : same_origin req (pyStrip (input.getD "")) = true) :
    api_shorten cfg (some s) input req rand =
      ((api_shorten_core cfg s (pyStrip (input.getD "")) rand).1,
       some (api_shorten_core cfg s (pyStrip (input.getD "")) rand).2.1,
       (api_shorten_core cfg s (pyStrip (input.getD "")) rand).2.2) := by
  rw [api_shorten_valid_eq hne hso]

lemma core_alloc_of_rev_empty {cfg : Config} {s : Store} {raw : String}
    {rand : Nat → Nat}
    (hrev : sget s (cfg.key_pfx ++ "path:" ++
      extract_path_preserving_query raw) = some "") :
    api_shorten_core cfg s raw rand =
      allocLoop cfg (extract_path_preserving_query raw)
        (cfg.key_pfx ++ "path:" ++ extract_path_preserving_query raw)
        rand s 0 8 := by
  simp only [api_shorten_core]
  rw [hrev]
  rfl

lemma core_alloc_cases {cfg : Config} {s : Store} {raw c p : String}
    {rand : Nat → Nat}
    (h1 : (api_shorten_core cfg s raw rand).1 = .success 201 c p) :
    api_shorten_core cfg s raw rand =
      allocLoop cfg (extract_path_preserving_query raw)
        (cfg.key_pfx ++ "path:" ++ extract_path_preserving_query raw)
        rand s 0 8 := by
  cases hrev : sget s (cfg.key_pfx ++ "path:" ++
      extract_path_preserving_query raw) with
  | none => exact core_alloc_of_rev_none hrev
  | some c0 =>
    by_cases hc0 : c0 = ""
    · subst hc0
      exact core_alloc_of_rev_empty hrev
    · by_cases hlive : sexists s (cfg.key_pfx ++ c0) = true
      · exfalso
        rw [core_reused hrev hc0 hlive] at h1
        have h' : ShortenOutcome.success 200 c0
            (extract_path_preserving_query raw) =
            ShortenOutcome.success 201 c p := h1
        have := ((ShortenOutcome.success.injEq _ _ _ _ _ _).mp h').1
        omega
      · exact core_alloc_of_fwd_dead hrev (by simpa using hlive)

/-- Everything a successful 201 response of `api_shorten` tells us
about the input and the resulting store. -/
lemma api_shorten_created_inv {cfg : Config} {s s1 : Store}
    {input : Option String} {req : Req} {rand : Nat → Nat}
    {c p : String} {n : Nat}
    (h : api_shorten cfg (some s) input req rand =
      (.success 201 c p, some s1, n)) :
    pyStrip (input.getD "") ≠ "" ∧
    same_origin req (pyStrip (input.getD "")) = true ∧
    p = extract_path_preserving_query (pyStrip (input.getD "")) ∧
    (∃ k, c = new_code (rand k) cfg.code_len) ∧
    s1 = sset ((cfg.key_pfx ++ c, p, cfg.ttl) :: s)
      (cfg.key_pfx ++ "path:" ++ p) c cfg.ttl ∧
    sget s1 (cfg.key_pfx ++ "path:" ++ p) = some c ∧
    sget s1 (cfg.key_pfx ++ c) = some p := by
  by_cases hraw : pyStrip (input.getD "") = ""
  · rw [api_shorten_empty_eq hraw] at h
    exact absurd (congrArg (fun x => x.1) h)
      (fun hh => ShortenOutcome.noConfusion hh)
  cases hso : same_origin req (pyStrip (input.getD "")) with
  | false =>
    rw [api_shorten_cross_eq hraw hso] at h
    exact absurd (congrArg (fun x => x.1) h)
      (fun hh => ShortenOutcome.noConfusion hh)
  | true =>
    rw [api_shorten_valid_some_eq hraw hso] at h
    have h1 : (api_shorten_core cfg s (pyStrip (input.getD "")) rand).1 =
        .success 201 c p := congrArg (fun x => x.1) h
    have h2 : (api_shorten_core cfg s (pyStrip (input.getD "")) rand).2.1 =
        s1 := Option.some.inj (congrArg (fun x => x.2.1) h)
    have hca := core_alloc_cases h1
    rw [hca] at h1 h2
    obtain ⟨hst, hp, hk, hnew, hs1⟩ :=
      allocLoop_created cfg (extract_path_preserving_query (pyStrip (input.getD "")))
        (cfg.key_pfx ++ "path:" ++
          extract_path_preserving_query (pyStrip (input.getD "")))
        rand 8 0 s 201 c p h1
    have hs1' : s1 = sset ((cfg.key_pfx ++ c, p, cfg.ttl) :: s)
        (cfg.key_pfx ++ "path:" ++ p) c cfg.ttl := by
      rw [← h2, hs1, hp]
    have hchars : ∀ ch ∈ c.data, ch ∈ BASE62 := by
      obtain ⟨k, hck⟩ := hk
      rw [hck]
      exact new_code_subset _ _
    have hfr : cfg.key_pfx ++ c ≠ cfg.key_pfx ++ "path:" ++ p :=
      code_key_ne_rev_key cfg c p hchars
    refine ⟨hraw, rfl, hp, hk, hs1', ?_, ?_⟩
    · rw [hs1']
      exact sget_sset_self _ _ _ _
    · rw [hs1', sget_sset_other _ _ _ _ _ hfr]
      show sget ((cfg.key_pfx ++ c, p, cfg.ttl) :: s) (cfg.key_pfx ++ c) =
        some p
      rw [sget, List.find?_cons_of_pos _ (by simp)]
      rfl

/-! ## Claim C1: allocate/resolve round trip -/

/-- C1: for every valid same-origin input (non-empty, passing the
same-origin check — both implied by the 201 outcome) whose allocation
freshly created a forward mapping, resolving the returned code against
the resulting store (in which that mapping has not expired) yields
exactly the normalized path of the input, refreshing that forward
key's ttl. -/
theorem alloc_resolve_roundtrip (cfg : Config) (s s1 : Store)
    (input : Option String) (req : Req) (rand : Nat → Nat)
    (c p : String) (n : Nat)
    (h : api_shorten cfg (some s) input req rand =
      (.success 201 c p, some s1, n)) :
    p = extract_path_preserving_query (pyStrip (input.getD "")) ∧
    redirect_short cfg (some s1) c =
      (.redirect (extract_path_preserving_query (pyStrip (input.getD ""))),
       some (sexpire s1 (cfg.key_pfx ++ c) cfg.ttl)) := by
  obtain ⟨hraw, hso, hp, hk, hs1, hgrev, hgfwd⟩ := api_shorten_created_inv h
  subst hp
  refine ⟨rfl, ?_⟩
  have hdef : redirect_short cfg (some s1) c =
      (match sget s1 (cfg.key_pfx ++ c) with
       | none => (.notFound, some s1)
       | some path =>
           if path = "" then (.notFound, some s1)
           else (.redirect path,
             some (sexpire s1 (cfg.key_pfx ++ c) cfg.ttl))) := rfl
  rw [hdef, hgfwd]
  show (if extract_path_preserving_query (pyStrip (input.getD "")) = ""
    then _ else _) = _
  rw [if_neg (extract_path_ne_empty _)]

/-- Witness for `alloc_resolve_roundtrip`: allocate `/foo?bar=1` on an
empty store, then resolve the returned code. -/
theorem alloc_resolve_roundtrip_witness :
    redirect_short ⟨"su:", 604800, 8⟩
      (some [("su:path:/foo?bar=1", "00000005", 604800),
             ("su:00000005", "/foo?bar=1", 604800)]) "00000005" =
      (.redirect (extract_path_preserving_query
        (pyStrip ((some "/foo?bar=1").getD ""))),
       some (sexpire [("su:path:/foo?bar=1", "00000005", 604800),
             ("su:00000005", "/foo?bar=1", 604800)]
         ("su:" ++ "00000005") 604800)) := by
  exact (alloc_resolve_roundtrip ⟨"su:", 604800, 8⟩ []
    [("su:path:/foo?bar=1", "00000005", 604800),
     ("su:00000005", "/foo?bar=1", 604800)]
    (some "/foo?bar=1") ⟨"https", "app.example"⟩ (fun _ => 5)
    "00000005" "/foo?bar=1" 1 (by decide)).2

/-! ## Claim C4: idempotent dedup -/

/-- C4: after a first call created code `c` for path `p`, a second
`api_shorten` for the same target (with an arbitrary, possibly
different random stream) finds the live reverse mapping and returns
the same code with the "reused" 200 status instead of the
"created" 201 status, consumes no random draw (mints no code), writes
no value — every key's stored value is unchanged, so no second reverse
entry appears — and refreshes the ttl of both the forward and the
reverse entry to the full configured lifetime. -/
theorem api_shorten_idempotent (cfg : Config) (s s1 : Store)
    (input : Option String) (req : Req) (rand rand2 : Nat → Nat)
    (c p : String) (n : Nat)
    (hlen : 1 ≤ cfg.code_len)
    (h : api_shorten cfg (some s) input req rand =
      (.success 201 c p, some s1, n)) :
    api_shorten cfg (some s1) input req rand2 =
      (.success 200 c p,
       some (sexpire (sexpire s1 (cfg.key_pfx ++ c) cfg.ttl)
         (cfg.key_pfx ++ "path:" ++ p) cfg.ttl), 0) ∧
    (∀ k, sget (sexpire (sexpire s1 (cfg.key_pfx ++ c) cfg.ttl)
        (cfg.key_pfx ++ "path:" ++ p) cfg.ttl) k = sget s1 k) ∧
    sttl (sexpire (sexpire s1 (cfg.key_pfx ++ c) cfg.ttl)
        (cfg.key_pfx ++ "path:" ++ p) cfg.ttl)
      (cfg.key_pfx ++ c) = some cfg.ttl ∧
    sttl (sexpire (sexpire s1 (cfg.key_pfx ++ c) cfg.ttl)
        (cfg.key_pfx ++ "path:" ++ p) cfg.ttl)
      (cfg.key_pfx ++ "path:" ++ p) = some cfg.ttl := by
  obtain ⟨hraw, hso, hp, hk, hs1, hgrev, hgfwd⟩ := api_shorten_created_inv h
  have hcne : c ≠ "" := by
    obtain ⟨k, hck⟩ := hk
    rw [hck]
    exact new_code_ne_empty _ _ hlen
  have hchars : ∀ ch ∈ c.data, ch ∈ BASE62 := by
    obtain ⟨k, hck⟩ := hk
    rw [hck]
    exact new_code_subset _ _
  have hfr : cfg.key_pfx ++ c ≠ cfg.key_pfx ++ "path:" ++ p :=
    code_key_ne_rev_key cfg c p hchars
  have hfe : sexists s1 (cfg.key_pfx ++ c) = true := sexists_of_sget hgfwd
  have hre : sexists s1 (cfg.key_pfx ++ "path:" ++ p) = true :=
    sexists_of_sget hgrev
  have hgrev' : sget s1 (cfg.key_pfx ++ "path:" ++
      extract_path_preserving_query (pyStrip (input.getD ""))) = some c := by
    rw [← hp]
    exact hgrev
  refine ⟨?_, ?_, ?_, ?_⟩
  · rw [api_shorten_valid_some_eq hraw hso,
      core_reused hgrev' hcne hfe]
    rw [← hp]
  · intro k
    rw [sget_sexpire, sget_sexpire]
  · rw [sttl_sexpire_other _ _ _ _ hfr]
    exact sttl_sexpire_self s1 (cfg.key_pfx ++ c) cfg.ttl hfe
  · refine sttl_sexpire_self _ _ _ ?_
    rw [sexists_sexpire]
    exact hre

/-- Witness for `api_shorten_idempotent`: re-shorten `/foo?bar=1`
against the store left by the first allocation, with a different
random stream. -/
theorem api_shorten_idempotent_witness :
    api_shorten ⟨"su:", 604800, 8⟩
      (some [("su:path:/foo?bar=1", "00000005", 604800),
             ("su:00000005", "/foo?bar=1", 604800)])
      (some "/foo?bar=1") ⟨"https", "app.example"⟩ (fun _ => 7) =
      (.success 200 "00000005" "/foo?bar=1",
       some (sexpire (sexpire
         [("su:path:/foo?bar=1", "00000005", 604800),
          ("su:00000005", "/foo?bar=1", 604800)]
         ("su:" ++ "00000005") 604800)
         ("su:" ++ "path:" ++ "/foo?bar=1") 604800), 0) :=
  (api_shorten_idempotent ⟨"su:", 604800, 8⟩ []
    [("su:path:/foo?bar=1", "00000005", 604800),
     ("su:00000005", "/foo?bar=1", 604800)]
    (some "/foo?bar=1") ⟨"https", "app.example"⟩ (fun _ => 5) (fun _ => 7)
    "00000005" "/foo?bar=1" 1 (by decide) (by decide)).1

end Traplace
